import Mathlib

/-!
Shallow embedding of the Property Solution App (src/App.tsx,
src/services/pdfGenerator.ts, src/services/geminiService.ts).

Conventions of the embedding:
* TypeScript numbers used for money and sizes are modelled as `Rat`.
* Date strings are compared in the source only through
  `new Date(s).getTime()`; the embedding stores that numeric timestamp
  directly as an `Int` field.
* Optional string fields (`aiSummary?`, `notes?`) are modelled as `String`
  with `""` for absent, which coincides with JavaScript truthiness tests
  on those fields.
* `localStorage` holds, per collection, either no value, a value that fails
  `JSON.parse`, or a JSON array of records; this is `StoredData`.
-/

/-- Modelled from the spec: the entity types live in `types.ts`, which is not
among the provided sources; fields follow spec §3 and their uses in
`src/App.tsx`. Status of a checklist item: Pass / Fail / N-A. -/
inductive ItemStatus
  | pass
  | fail
  | na
deriving DecidableEq

/-- Modelled from the spec: photo payload (base64 data + original name). -/
structure InspectionPhoto where
  base64 : String
  name : String
deriving DecidableEq

/-- Modelled from the spec: one checklist item of an inspection area. -/
structure InspectionItem where
  id : String
  category : String
  point : String
  status : ItemStatus
  location : String
  comments : String
  photos : List InspectionPhoto
deriving DecidableEq

/-- Modelled from the spec: an inspection area with its ordered items. -/
structure InspectionArea where
  id : String
  name : String
  items : List InspectionItem
deriving DecidableEq

/-- Modelled from the spec: property type of an inspection
(Apartment / Villa / Building / Other). -/
inductive PropertyType
  | apartment
  | villa
  | building
  | other
deriving DecidableEq

/-- The string stored for a `PropertyType` value; the TypeScript code keeps
the enum as this string and compares it with `===`. -/
def ptString : PropertyType → String
  | .apartment => "Apartment"
  | .villa => "Villa"
  | .building => "Building"
  | .other => "Other"

/-- Modelled from the spec: an inspection record. `inspectionDate` is the
numeric timestamp that `new Date(inspectionDate).getTime()` yields in the
source; `aiSummary` is `""` when absent. -/
structure InspectionData where
  id : String
  clientName : String
  propertyLocation : String
  propertyType : PropertyType
  inspectorName : String
  inspectionDate : Int
  areas : List InspectionArea
  aiSummary : String
deriving DecidableEq

/-- Modelled from the spec: kind of a client property
(Residential / Commercial). -/
inductive PropertyKind
  | residential
  | commercial
deriving DecidableEq

/-- The string stored for a `PropertyKind` value. -/
def pkString : PropertyKind → String
  | .residential => "Residential"
  | .commercial => "Commercial"

/-- Modelled from the spec: a property owned by a client. -/
structure Property where
  id : String
  location : String
  type : PropertyKind
  size : Rat
deriving DecidableEq

/-- Modelled from the spec: a client with its ordered properties. -/
structure Client where
  id : String
  name : String
  email : String
  phone : String
  address : String
  properties : List Property
deriving DecidableEq

/-- Modelled from the spec: invoice status enum
(Draft / Unpaid / Partially-paid / Paid). -/
inductive InvoiceStatus
  | draft
  | unpaid
  | partiallyPaid
  | paid
deriving DecidableEq

/-- Modelled from the spec: one service line of an invoice. -/
structure InvoiceServiceItem where
  id : String
  description : String
  quantity : Rat
  unitPrice : Rat
  total : Rat
deriving DecidableEq

/-- Modelled from the spec: an invoice record. `invoiceDate` / `dueDate` are
the numeric timestamps of the stored date strings. -/
structure Invoice where
  id : String
  invoiceNumber : String
  invoiceDate : Int
  dueDate : Int
  clientId : String
  clientName : String
  clientAddress : String
  clientEmail : String
  propertyLocation : String
  services : List InvoiceServiceItem
  subtotal : Rat
  tax : Rat
  totalAmount : Rat
  amountPaid : Rat
  status : InvoiceStatus
  notes : String
  template : String
deriving DecidableEq

/-- State of one `localStorage` key: absent (`getItem` returns `null`),
present but not valid JSON (`JSON.parse` throws), or a stored record list. -/
inductive StoredData (α : Type)
  | absent
  | corrupt
  | stored (records : List α)
deriving DecidableEq

/-- The record list obtained by `JSON.parse(localStorage.getItem(k) || '[]')`
inside the `try`/`catch` of `getInspections` / `getInvoices`: an absent key
parses as `[]`, a parse failure is caught and yields `[]`. -/
def rawRecords {α : Type} : StoredData α → List α
  | .absent => []
  | .corrupt => []
  | .stored l => l

/-- Comparator of `getInspections`:
`(a, b) => new Date(b.inspectionDate).getTime() - new Date(a.inspectionDate).getTime()`.
`a` sorts before `b` exactly when the comparator is `≤ 0`, i.e. when
`b.inspectionDate ≤ a.inspectionDate`; JavaScript `Array.prototype.sort` is
stable, modelled by the stable `List.mergeSort`. -/
def inspBefore (a b : InspectionData) : Bool :=
  decide (b.inspectionDate ≤ a.inspectionDate)

/-- `getInspections` (src/App.tsx 16-24): parse the stored list and sort it
by inspection date, descending. -/
def getInspections (s : StoredData InspectionData) : List InspectionData :=
  (rawRecords s).mergeSort inspBefore

/-- `getInspectionById` (src/App.tsx 26-29). -/
def getInspectionById (id : String) (s : StoredData InspectionData) :
    Option InspectionData :=
  (getInspections s).find? (fun insp => insp.id == id)

/-- `saveInspection` (src/App.tsx 31-35): drop any record with the same id,
append the new record, write the list back. -/
def saveInspection (r : InspectionData) (s : StoredData InspectionData) :
    StoredData InspectionData :=
  .stored ((getInspections s).filter (fun insp => insp.id != r.id) ++ [r])

/-- `deleteInspection` (src/App.tsx 37-40). -/
def deleteInspection (id : String) (s : StoredData InspectionData) :
    StoredData InspectionData :=
  .stored ((getInspections s).filter (fun insp => insp.id != id))

/-- Modelled from the spec: `MOCK_CLIENTS` lives in `constants.ts`, which is
not among the provided sources. The seeding code in `getClients` writes this
built-in, non-empty sample client list into storage when the key is absent;
the concrete entry stands in for the real mock data. -/
def MOCK_CLIENTS : List Client :=
  [{ id := "client_1", name := "Sample Client", email := "sample@example.com",
     phone := "99999999", address := "Muscat", properties := [] }]

/-- `getClients` (src/App.tsx 46-59): an absent key returns the mock list and
writes it into storage; a present value is parsed and returned as is (no
sort); a parse failure is caught and yields `[]` with storage untouched.
The result pairs the returned list with the storage state afterwards. -/
def getClients (s : StoredData Client) : List Client × StoredData Client :=
  match s with
  | .absent => (MOCK_CLIENTS, .stored MOCK_CLIENTS)
  | .corrupt => ([], .corrupt)
  | .stored l => (l, .stored l)

/-- `saveClient` (src/App.tsx 61-65). -/
def saveClient (c : Client) (s : StoredData Client) : StoredData Client :=
  .stored ((getClients s).1.filter (fun x => x.id != c.id) ++ [c])

/-- `deleteClient` (src/App.tsx 67-70). -/
def deleteClient (id : String) (s : StoredData Client) : StoredData Client :=
  .stored ((getClients s).1.filter (fun x => x.id != id))

/-- Comparator of `getInvoices`, descending by `invoiceDate`. -/
def invBefore (a b : Invoice) : Bool :=
  decide (b.invoiceDate ≤ a.invoiceDate)

/-- `getInvoices` (src/App.tsx 76-84). -/
def getInvoices (s : StoredData Invoice) : List Invoice :=
  (rawRecords s).mergeSort invBefore

/-- `getInvoiceById` (src/App.tsx 86-88). -/
def getInvoiceById (id : String) (s : StoredData Invoice) : Option Invoice :=
  (getInvoices s).find? (fun inv => inv.id == id)

/-- `saveInvoice` (src/App.tsx 90-94). -/
def saveInvoice (r : Invoice) (s : StoredData Invoice) : StoredData Invoice :=
  .stored ((getInvoices s).filter (fun inv => inv.id != r.id) ++ [r])

/-- `deleteInvoice` (src/App.tsx 96-99). -/
def deleteInvoice (id : String) (s : StoredData Invoice) : StoredData Invoice :=
  .stored ((getInvoices s).filter (fun inv => inv.id != id))

/-- The subtotal reduction of the `InvoiceForm` effect (src/App.tsx 1424-1430):
`invoice.services.reduce((acc, item) => acc + item.total, 0)`. -/
def servicesSubtotal (services : List InvoiceServiceItem) : Rat :=
  services.foldl (fun acc item => acc + item.total) 0

/-- The derived-totals effect of `InvoiceForm` (src/App.tsx 1424-1430): runs
after every change of the `services` array and overwrites `subtotal`, `tax`
(5% of subtotal) and `totalAmount`. -/
def recomputeTotals (inv : Invoice) : Invoice :=
  let subtotal := servicesSubtotal inv.services
  let tax := subtotal * (0.05 : Rat)
  let totalAmount := subtotal + tax
  { inv with subtotal := subtotal, tax := tax, totalAmount := totalAmount }

/-- The balance due rendered at the bottom of the invoice form
(src/App.tsx: `invoice.totalAmount - invoice.amountPaid`). -/
def balanceDue (inv : Invoice) : Rat :=
  inv.totalAmount - inv.amountPaid

/-- One field update passed to `handleServiceChange`: the description inputs
pass the raw string, the quantity / unit-price inputs pass
`parseFloat(e.target.value)`. -/
inductive ServiceFieldUpdate
  | description (v : String)
  | quantity (v : Rat)
  | unitPrice (v : Rat)

/-- Body of `handleServiceChange` (src/App.tsx 1468-1477) on one service:
`{ ...service, [field]: value }`, then, when the field was `quantity` or
`unitPrice`, `service.total = service.quantity * service.unitPrice`. -/
def applyServiceField (s : InvoiceServiceItem) :
    ServiceFieldUpdate → InvoiceServiceItem
  | .description v => { s with description := v }
  | .quantity v => { s with quantity := v, total := v * s.unitPrice }
  | .unitPrice v => { s with unitPrice := v, total := s.quantity * v }

/-- The fresh service line of `addService` (src/App.tsx 1479-1482); the
timestamp-derived id is passed in. -/
def newServiceItem (id : String) : InvoiceServiceItem :=
  { id := id, description := "", quantity := 1, unitPrice := 0, total := 0 }

/-- The auto-populated line of `handlePropertySelect` (src/App.tsx 1452-1460):
rate 2 for a Commercial property, else 1; quantity is the property size. -/
def inspectionServiceLine (svcId : String) (p : Property) :
    InvoiceServiceItem :=
  let rate : Rat := if p.type == .commercial then 2 else 1
  { id := svcId,
    description := pkString p.type ++ " property inspection at " ++ p.location,
    quantity := p.size,
    unitPrice := rate,
    total := p.size * rate }

/-- The user interactions of `InvoiceForm` that the embedding tracks. Ids
generated from `Date.now()` are passed in as arguments. -/
inductive InvoiceFormStep
  | addService (svcId : String)
  | editService (index : Nat) (upd : ServiceFieldUpdate)
  | removeService (index : Nat)
  | selectProperty (svcId : String) (p : Property)
  | selectClient (c : Client)
  | setAmountPaid (v : Rat)

/-- One `InvoiceForm` interaction followed by the derived-totals effect
whenever the interaction replaced the `services` array:
* `addService` appends a blank line (src/App.tsx 1479-1482);
* `editService` rewrites one line via `handleServiceChange`
  (src/App.tsx 1468-1477); the UI only calls it with an in-range index,
  and an out-of-range index leaves the list unchanged in the model;
* `removeService` filters the line at the index out (src/App.tsx 1484-1486);
* `selectProperty` replaces the lines with the single auto-populated
  inspection line (src/App.tsx 1452-1465);
* `selectClient` copies the client snapshot and clears the lines
  (src/App.tsx 1436-1450);
* `setAmountPaid` updates `amountPaid` only (no services change, so the
  totals effect does not re-run). -/
def applyStep (inv : Invoice) : InvoiceFormStep → Invoice
  | .addService svcId =>
      recomputeTotals { inv with services := inv.services ++ [newServiceItem svcId] }
  | .editService index upd =>
      match inv.services[index]? with
      | none => inv
      | some s =>
          recomputeTotals
            { inv with services := inv.services.set index (applyServiceField s upd) }
  | .removeService index =>
      recomputeTotals { inv with services := inv.services.eraseIdx index }
  | .selectProperty svcId p =>
      recomputeTotals
        { inv with propertyLocation := p.location,
                   services := [inspectionServiceLine svcId p] }
  | .selectClient c =>
      recomputeTotals
        { inv with clientId := c.id, clientName := c.name,
                   clientAddress := c.address, clientEmail := c.email,
                   propertyLocation := "", services := [] }
  | .setAmountPaid v => { inv with amountPaid := v }

/-- The freshly defaulted invoice of create mode (src/App.tsx 1408-1420);
the timestamp-derived identifiers and dates are passed in. -/
def initInvoice (id invoiceNumber : String) (invoiceDate dueDate : Int) :
    Invoice :=
  { id := id, invoiceNumber := invoiceNumber,
    invoiceDate := invoiceDate, dueDate := dueDate,
    clientId := "", clientName := "", clientAddress := "", clientEmail := "",
    propertyLocation := "", services := [],
    subtotal := 0, tax := 0, totalAmount := 0, amountPaid := 0,
    status := .draft, notes := "", template := "classic" }

/-- Per-line part of the invoice-totals invariant: every service line's
`total` equals its `quantity × unitPrice`. -/
def lineTotalsOK (services : List InvoiceServiceItem) : Prop :=
  services.Forall (fun s => s.total = s.quantity * s.unitPrice)

/-- The invariant the spec states for invoice totals: every line total is
`quantity × unitPrice`, `subtotal` is the sum of the line totals, `tax` is
5% of `subtotal`, `totalAmount` is `subtotal + tax`, and the displayed
balance due is `totalAmount − amountPaid`. -/
def invoiceInvariant (inv : Invoice) : Prop :=
  lineTotalsOK inv.services ∧
  inv.subtotal = (inv.services.map (fun s => s.total)).sum ∧
  inv.tax = inv.subtotal * (0.05 : Rat) ∧
  inv.totalAmount = inv.subtotal + inv.tax ∧
  balanceDue inv = inv.totalAmount - inv.amountPaid

/-- The inspections-dashboard filter (src/App.tsx 885):
`inspections.filter(insp => filter === 'All' || insp.propertyType === filter)`. -/
def filteredInspections (filter : String) (l : List InspectionData) :
    List InspectionData :=
  l.filter (fun insp => filter == "All" || ptString insp.propertyType == filter)

/-- The fixed string `generateReportSummary` returns when the AI call throws
(src/services/geminiService.ts 29-31). -/
def summaryErrorString : String :=
  "Error: Could not generate AI summary. Please check the console for details."

/-- `generateReportSummary` (src/services/geminiService.ts 9-33) with the
remote call abstracted to its outcome: `some text` when the model call
returns, `none` when it throws; the catch branch returns the fixed error
string. -/
def generateReportSummary (outcome : Option String) : String :=
  match outcome with
  | some text => text
  | none => summaryErrorString

/-- `handleGenerateSummary` (src/App.tsx 642-651): store the returned
summary string (successful or not) into `aiSummary` and persist the updated
inspection. Returns the updated in-memory record and the new storage. -/
def handleGenerateSummary (insp : InspectionData) (outcome : Option String)
    (s : StoredData InspectionData) :
    InspectionData × StoredData InspectionData :=
  let summary := generateReportSummary outcome
  let updated := { insp with aiSummary := summary }
  (updated, saveInspection updated s)

/-- Content blocks of the generated PDF (src/services/pdfGenerator.ts). The
embedding records what content the generator emits and in which order;
geometry (cursor positions, page-break measurements, fonts, colors) is
layout plumbing that carries no content and is not tracked. -/
inductive PdfBlock
  | pageBreak
  | sectionHeader (englishTitle arabicTitle : String)
  | disclaimerPages
  | summaryBox (text : String)
  | areaHeading (name : String)
  | itemCard (item : InspectionItem)
  | noItemsNote (text : String)
deriving DecidableEq

/-- `addAreaSection` (src/services/pdfGenerator.ts 361-389): the area name
heading, then one item card per item of the area, in order. -/
def addAreaSection (doc : List PdfBlock) (area : InspectionArea) :
    List PdfBlock :=
  area.items.foldl (fun d item => d ++ [PdfBlock.itemCard item])
    (doc ++ [PdfBlock.areaHeading area.name])

/-- The literal text of the empty-findings branch
(src/services/pdfGenerator.ts 355). -/
def noItemsText : String :=
  "No inspection items were recorded for this property."

/-- `addInspectionDetails` (src/services/pdfGenerator.ts 343-359): new page,
findings section header, then — when the inspection has areas — a loop over
the areas rendering `addAreaSection` for each area that has at least one
item; otherwise the fixed no-items text. -/
def addInspectionDetails (doc : List PdfBlock) (insp : InspectionData) :
    List PdfBlock :=
  let doc := doc ++ [PdfBlock.pageBreak,
    PdfBlock.sectionHeader "INSPECTION FINDINGS" "نتائج الفحص"]
  if insp.areas.length > 0 then
    insp.areas.foldl
      (fun d area => if area.items.length > 0 then addAreaSection d area else d)
      doc
  else
    doc ++ [PdfBlock.noItemsNote noItemsText]

/-- `addAISummary` (src/services/pdfGenerator.ts 323-341): new page, summary
section header, the boxed summary text. -/
def addAISummary (doc : List PdfBlock) (summary : String) : List PdfBlock :=
  doc ++ [PdfBlock.pageBreak,
    PdfBlock.sectionHeader "Executive AI Summary" "ملخص الذكاء الاصطناعي",
    PdfBlock.summaryBox summary]

/-- `generateReport` (src/services/pdfGenerator.ts 562-576): the fixed
disclaimer pages, then — when `inspection.aiSummary` is truthy, i.e. a
non-empty string — the AI summary section, then the findings section.
`addHeadersAndFooters` stamps per-page overlays and emits no content
blocks. -/
def generateReport (insp : InspectionData) : List PdfBlock :=
  let doc := [PdfBlock.disclaimerPages]
  let doc := if insp.aiSummary.isEmpty then doc else addAISummary doc insp.aiSummary
  addInspectionDetails doc insp

theorem servicesSubtotal_eq_sum (l : List InvoiceServiceItem) :
    servicesSubtotal l = (l.map (fun s => s.total)).sum := by
  have h : ∀ init : Rat,
      l.foldl (fun acc item => acc + item.total) init
        = init + (l.map (fun s => s.total)).sum := by
    induction l with
    | nil => intro init; simp
    | cons a t ih =>
        intro init
        simp only [List.foldl_cons, List.map_cons, List.sum_cons, ih]
        ring
  simpa [servicesSubtotal] using h 0

theorem lineTotalsOK_iff (l : List InvoiceServiceItem) :
    lineTotalsOK l ↔ ∀ s ∈ l, s.total = s.quantity * s.unitPrice :=
  List.forall_iff_forall_mem

theorem invariant_recomputeTotals (inv : Invoice)
    (h : lineTotalsOK inv.services) :
    invoiceInvariant (recomputeTotals inv) := by
  refine ⟨h, ?_, rfl, rfl, rfl⟩
  simp [recomputeTotals, servicesSubtotal_eq_sum]

theorem applyServiceField_total (s : InvoiceServiceItem)
    (upd : ServiceFieldUpdate) (h : s.total = s.quantity * s.unitPrice) :
    (applyServiceField s upd).total
      = (applyServiceField s upd).quantity * (applyServiceField s upd).unitPrice := by
  cases upd <;> simp [applyServiceField, h]

theorem invariant_applyStep (inv : Invoice) (step : InvoiceFormStep)
    (h : invoiceInvariant inv) : invoiceInvariant (applyStep inv step) := by
  have h1 := h.1
  cases step with
  | addService svcId =>
      apply invariant_recomputeTotals
      rw [lineTotalsOK_iff]
      intro s hs
      rcases List.mem_append.mp hs with hl | hr
      · exact (lineTotalsOK_iff _).mp h1 s hl
      · rcases List.mem_singleton.mp hr with rfl
        simp [newServiceItem]
  | editService index upd =>
      simp only [applyStep]
      cases hget : inv.services[index]? with
      | none => exact h
      | some s =>
          apply invariant_recomputeTotals
          rw [lineTotalsOK_iff]
          intro x hx
          rcases List.mem_or_eq_of_mem_set hx with hl | rfl
          · exact (lineTotalsOK_iff _).mp h1 x hl
          · exact applyServiceField_total s upd
              ((lineTotalsOK_iff _).mp h1 s (List.getElem?_mem hget))
  | removeService index =>
      apply invariant_recomputeTotals
      rw [lineTotalsOK_iff]
      intro x hx
      exact (lineTotalsOK_iff _).mp h1 x ((List.eraseIdx_sublist _ _).mem hx)
  | selectProperty svcId p =>
      apply invariant_recomputeTotals
      rw [lineTotalsOK_iff]
      intro x hx
      rcases List.mem_singleton.mp hx with rfl
      cases hp : p.type <;> simp [inspectionServiceLine, hp]
  | selectClient c =>
      apply invariant_recomputeTotals
      rw [lineTotalsOK_iff]
      intro x hx
      simp at hx
  | setAmountPaid v =>
      exact ⟨h1, h.2.1, h.2.2.1, h.2.2.2.1, rfl⟩

theorem invariant_initInvoice (id invoiceNumber : String)
    (invoiceDate dueDate : Int) :
    invoiceInvariant (initInvoice id invoiceNumber invoiceDate dueDate) := by
  refine ⟨?_, ?_, ?_, ?_, rfl⟩ <;>
    simp [initInvoice, lineTotalsOK, balanceDue]

theorem invariant_foldl (steps : List InvoiceFormStep) (inv : Invoice)
    (h : invoiceInvariant inv) :
    invoiceInvariant (steps.foldl applyStep inv) := by
  induction steps generalizing inv with
  | nil => exact h
  | cons step rest ih => exact ih _ (invariant_applyStep inv step h)

/-- C1: starting from the freshly defaulted invoice of the invoice form,
after any sequence of service-line interactions (add, edit, remove a line,
auto-populate from a property, reset on client change, edit the amount
paid), every service line's `total` equals `quantity × unitPrice`, the
invoice's `subtotal` equals the sum of line totals, `tax` equals
`subtotal × 0.05`, `totalAmount` equals `subtotal + tax`, and the displayed
balance due equals `totalAmount − amountPaid`. -/
theorem invoiceForm_totals_invariant (id invoiceNumber : String)
    (invoiceDate dueDate : Int) (steps : List InvoiceFormStep) :
    invoiceInvariant
      (steps.foldl applyStep (initInvoice id invoiceNumber invoiceDate dueDate)) :=
  invariant_foldl steps _ (invariant_initInvoice id invoiceNumber invoiceDate dueDate)

theorem find?_eq_some_of_unique {α : Type} (p : α → Bool) (l : List α) (r : α)
    (hm : r ∈ l) (hp : p r = true) (hu : ∀ x ∈ l, p x = true → x = r) :
    l.find? p = some r := by
  induction l with
  | nil => cases hm
  | cons a t ih =>
      by_cases ha : p a = true
      · have hb : a = r := hu a (List.mem_cons_self a t) ha
        subst hb
        simp [List.find?_cons, ha]
      · rw [List.find?_cons_of_neg _ ha]
        apply ih
        · rcases List.mem_cons.mp hm with hr | hr
          · exact absurd (hr ▸ hp) ha
          · exact hr
        · exact fun x hx hpx => hu x (List.mem_cons_of_mem _ hx) hpx

theorem inspBefore_trans (a b c : InspectionData)
    (hab : inspBefore a b) (hbc : inspBefore b c) : inspBefore a c := by
  simp only [inspBefore, decide_eq_true_eq] at *
  exact le_trans hbc hab

theorem inspBefore_total (a b : InspectionData) :
    inspBefore a b || inspBefore b a := by
  simp only [inspBefore, Bool.or_eq_true, decide_eq_true_eq]
  exact (le_total _ _).symm

theorem invBefore_trans (a b c : Invoice)
    (hab : invBefore a b) (hbc : invBefore b c) : invBefore a c := by
  simp only [invBefore, decide_eq_true_eq] at *
  exact le_trans hbc hab

theorem invBefore_total (a b : Invoice) :
    invBefore a b || invBefore b a := by
  simp only [invBefore, Bool.or_eq_true, decide_eq_true_eq]
  exact (le_total _ _).symm

theorem getInspections_sorted (s : StoredData InspectionData) :
    (getInspections s).Pairwise
      (fun a b => b.inspectionDate ≤ a.inspectionDate) := by
  have h := List.sorted_mergeSort
    (fun a b c => inspBefore_trans a b c)
    (fun a b => inspBefore_total a b) (rawRecords s)
  exact h.imp (fun hab => by simpa [inspBefore] using hab)

theorem getInvoices_sorted (s : StoredData Invoice) :
    (getInvoices s).Pairwise (fun a b => b.invoiceDate ≤ a.invoiceDate) := by
  have h := List.sorted_mergeSort
    (fun a b c => invBefore_trans a b c)
    (fun a b => invBefore_total a b) (rawRecords s)
  exact h.imp (fun hab => by simpa [invBefore] using hab)

theorem saveInspection_getById (r : InspectionData)
    (s : StoredData InspectionData) :
    getInspectionById r.id (saveInspection r s) = some r := by
  unfold getInspectionById saveInspection getInspections rawRecords
  apply find?_eq_some_of_unique
  · rw [List.mem_mergeSort, List.mem_append]
    exact Or.inr (List.mem_singleton_self r)
  · simp
  · intro x hx hpx
    rw [List.mem_mergeSort, List.mem_append] at hx
    rcases hx with hf | hr
    · have := List.of_mem_filter hf
      simp only [bne_iff_ne, ne_eq, beq_iff_eq] at this hpx
      exact absurd hpx this
    · exact List.mem_singleton.mp hr

theorem saveInspection_count (r : InspectionData)
    (s : StoredData InspectionData) :
    ((rawRecords (saveInspection r s)).map (fun i => i.id)).count r.id = 1 := by
  simp only [saveInspection, rawRecords, List.map_append, List.count_append]
  have h0 : (((getInspections s).filter
      (fun insp => insp.id != r.id)).map (fun i => i.id)).count r.id = 0 := by
    rw [List.count_eq_zero]
    intro hmem
    rcases List.mem_map.mp hmem with ⟨x, hx, hid⟩
    have hq := List.of_mem_filter hx
    rw [bne_iff_ne] at hq
    exact hq hid
  rw [h0]
  simp

theorem saveInspection_nodupIds (r : InspectionData)
    (s : StoredData InspectionData)
    (h : ((rawRecords s).map (fun i => i.id)).Nodup) :
    ((rawRecords (saveInspection r s)).map (fun i => i.id)).Nodup := by
  simp only [saveInspection, rawRecords, List.map_append]
  rw [List.nodup_append]
  have hsorted : List.Perm ((getInspections s).map (fun i => i.id))
      ((rawRecords s).map (fun i => i.id)) :=
    (List.mergeSort_perm (rawRecords s) inspBefore).map _
  have hnod : ((getInspections s).map (fun i => i.id)).Nodup :=
    hsorted.symm.nodup h
  refine ⟨?_, List.nodup_singleton _, ?_⟩
  · exact (((List.filter_sublist _).map _).nodup hnod)
  · intro a ha hb
    rcases List.mem_map.mp ha with ⟨x, hx, hid⟩
    have hq := List.of_mem_filter hx
    rw [bne_iff_ne] at hq
    rcases List.mem_singleton.mp hb
    exact hq hid

/-- C2: for every record and every prior store state, saving the record and
retrieving it by its id returns exactly the saved record; after the save,
exactly one stored record carries that id (so a second save of the same
record again leaves exactly one); and a save never introduces a duplicate
id into a store whose ids were unique. -/
theorem inspection_save_roundtrip_upsert (s : StoredData InspectionData)
    (r : InspectionData) :
    getInspectionById r.id (saveInspection r s) = some r ∧
    ((rawRecords (saveInspection r s)).map (fun i => i.id)).count r.id = 1 ∧
    (((rawRecords s).map (fun i => i.id)).Nodup →
      ((rawRecords (saveInspection r s)).map (fun i => i.id)).Nodup) :=
  ⟨saveInspection_getById r s, saveInspection_count r s,
    saveInspection_nodupIds r s⟩

/-- A small concrete inspection used by the witnesses. -/
def inspW1 : InspectionData :=
  { id := "insp_1", clientName := "A", propertyLocation := "L1",
    propertyType := .apartment, inspectorName := "I",
    inspectionDate := 20, areas := [], aiSummary := "" }

/-- A second concrete inspection, with a distinct id. -/
def inspW2 : InspectionData :=
  { id := "insp_2", clientName := "B", propertyLocation := "L2",
    propertyType := .villa, inspectorName := "I",
    inspectionDate := 10, areas := [], aiSummary := "" }

/-- Witness for C2 at a concrete one-record store and a fresh record,
discharging the unique-ids hypothesis of the third conjunct. -/
theorem inspection_save_roundtrip_upsert_witness :
    getInspectionById inspW2.id (saveInspection inspW2 (.stored [inspW1]))
        = some inspW2 ∧
    ((rawRecords (saveInspection inspW2 (.stored [inspW1]))).map
        (fun i => i.id)).count inspW2.id = 1 ∧
    ((rawRecords (saveInspection inspW2 (.stored [inspW1]))).map
        (fun i => i.id)).Nodup :=
  ⟨(inspection_save_roundtrip_upsert (.stored [inspW1]) inspW2).1,
   (inspection_save_roundtrip_upsert (.stored [inspW1]) inspW2).2.1,
   (inspection_save_roundtrip_upsert (.stored [inspW1]) inspW2).2.2
     (by decide)⟩

/-- C3: deleting by id removes exactly the records carrying that id, for
inspections and for clients alike: the list read back afterwards is the
previous list with the matching records filtered out — every other record
unchanged, in the same relative order. -/
theorem delete_removes_only_matching (s : StoredData InspectionData)
    (cs : StoredData Client) (id : String) :
    getInspections (deleteInspection id s)
        = (getInspections s).filter (fun insp => insp.id != id) ∧
    (getClients (deleteClient id cs)).1
        = (getClients cs).1.filter (fun c => c.id != id) := by
  constructor
  · show ((getInspections s).filter
        (fun insp => insp.id != id)).mergeSort inspBefore = _
    apply List.mergeSort_of_sorted
    exact (List.sorted_mergeSort
      (fun a b c => inspBefore_trans a b c)
      (fun a b => inspBefore_total a b) (rawRecords s)).filter _
  · rfl

/-- Two concrete clients that differ, used to exhibit that `getClients`
does not reorder stored data. -/
def clientA : Client :=
  { id := "client_a", name := "Alice", email := "a@example.com",
    phone := "1", address := "X", properties := [] }

/-- Second concrete client for the ordering counterexample. -/
def clientB : Client :=
  { id := "client_b", name := "Bob", email := "b@example.com",
    phone := "2", address := "Y", properties := [] }

/-- C4 counterexample: the claim asserts that every collection's list
operation returns records sorted by a date field of the collection,
most recent first. `Client` has no date field at all, and `getClients`
applies no sort: the same two distinct client records stored in either
order are returned in that stored order, so the returned list is not
normalised by any record-derived date ordering. -/
theorem getClients_not_sorted_counterexample :
    (getClients (.stored [clientA, clientB])).1 = [clientA, clientB] ∧
    (getClients (.stored [clientB, clientA])).1 = [clientB, clientA] ∧
    decide (clientA = clientB) = false :=
  ⟨rfl, rfl, by decide⟩

/-- C4 (amended): `getInspections` is sorted by `inspectionDate` descending
and `getInvoices` by `invoiceDate` descending, for every store state; but
`getClients` returns stored client records exactly as stored, unsorted
(`Client` has no date field). -/
theorem getAll_sorting (s : StoredData InspectionData)
    (t : StoredData Invoice) (l : List Client) :
    (getInspections s).Pairwise
        (fun a b => b.inspectionDate ≤ a.inspectionDate) ∧
    (getInvoices t).Pairwise (fun a b => b.invoiceDate ≤ a.invoiceDate) ∧
    (getClients (.stored l)).1 = l :=
  ⟨getInspections_sorted s, getInvoices_sorted t, rfl⟩

theorem foldl_append_itemCards (items : List InspectionItem)
    (d : List PdfBlock) :
    items.foldl (fun d item => d ++ [PdfBlock.itemCard item]) d
      = d ++ items.map PdfBlock.itemCard := by
  induction items generalizing d with
  | nil => simp
  | cons a t ih => simp [List.foldl_cons, ih]

theorem addAreaSection_eq (doc : List PdfBlock) (area : InspectionArea) :
    addAreaSection doc area
      = doc ++ (PdfBlock.areaHeading area.name
          :: area.items.map PdfBlock.itemCard) := by
  simp [addAreaSection, foldl_append_itemCards]

theorem foldl_areas_eq (areas : List InspectionArea) (d : List PdfBlock) :
    areas.foldl
        (fun d area =>
          if area.items.length > 0 then addAreaSection d area else d) d
      = d ++ areas.flatMap
          (fun a => if a.items.isEmpty then []
            else PdfBlock.areaHeading a.name :: a.items.map PdfBlock.itemCard) := by
  induction areas generalizing d with
  | nil => simp
  | cons x xs ih =>
      rw [List.foldl_cons, ih, List.flatMap_cons]
      cases hx : x.items with
      | nil => simp [hx]
      | cons i is => simp [hx, addAreaSection_eq, List.append_assoc]

theorem addInspectionDetails_eq (doc : List PdfBlock) (insp : InspectionData) :
    addInspectionDetails doc insp
      = doc ++ [PdfBlock.pageBreak,
          PdfBlock.sectionHeader "INSPECTION FINDINGS" "نتائج الفحص"]
        ++ (if insp.areas.isEmpty then [PdfBlock.noItemsNote noItemsText]
            else insp.areas.flatMap
              (fun a => if a.items.isEmpty then []
                else PdfBlock.areaHeading a.name
                  :: a.items.map PdfBlock.itemCard)) := by
  unfold addInspectionDetails
  cases hA : insp.areas with
  | nil => simp [hA]
  | cons a t =>
      have h1 : ((a :: t).length > 0) = True := by simp
      simp only [h1, if_true, List.isEmpty_cons, Bool.false_eq_true,
        if_false, foldl_areas_eq, List.append_assoc]

theorem flatMap_if_eq_filter_flatMap (areas : List InspectionArea) :
    areas.flatMap
        (fun a => if a.items.isEmpty then []
          else PdfBlock.areaHeading a.name :: a.items.map PdfBlock.itemCard)
      = (areas.filter (fun a => !a.items.isEmpty)).flatMap
          (fun a => PdfBlock.areaHeading a.name
            :: a.items.map PdfBlock.itemCard) := by
  induction areas with
  | nil => rfl
  | cons x xs ih =>
      rw [List.flatMap_cons, List.filter_cons, ih]
      cases hx : x.items.isEmpty with
      | true => simp [hx]
      | false => simp [hx]

/-- Concrete inspection whose single area has no items, for the C5
counterexample. -/
def inspEmptyAreaKitchen : InspectionData :=
  { id := "insp_k", clientName := "C", propertyLocation := "L",
    propertyType := .apartment, inspectorName := "I", inspectionDate := 0,
    areas := [{ id := "area_1", name := "Kitchen", items := [] }],
    aiSummary := "" }

/-- C5 counterexample: the claim promises one heading per area of the
inspection, but `addInspectionDetails` skips any area whose item list is
empty. For this inspection, "Kitchen" is an area, yet no heading for it
appears anywhere in the generated report. -/
theorem findings_missing_heading_counterexample :
    inspEmptyAreaKitchen.areas.map (fun a => a.name) = ["Kitchen"] ∧
    decide (PdfBlock.areaHeading "Kitchen"
      ∈ generateReport inspEmptyAreaKitchen) = false :=
  ⟨rfl, by decide⟩

/-- C5 (amended): for an inspection that has at least one area, the findings
section is the findings header followed by, for each area THAT HAS AT LEAST
ONE ITEM and in stored order, one heading for the area followed by one card
per item of the area in stored order; an area with no items contributes
nothing (its heading is omitted). -/
theorem findings_area_structure (doc : List PdfBlock) (insp : InspectionData)
    (h : insp.areas ≠ []) :
    addInspectionDetails doc insp
      = doc ++ [PdfBlock.pageBreak,
          PdfBlock.sectionHeader "INSPECTION FINDINGS" "نتائج الفحص"]
        ++ (insp.areas.filter (fun a => !a.items.isEmpty)).flatMap
            (fun a => PdfBlock.areaHeading a.name
              :: a.items.map PdfBlock.itemCard) := by
  rw [addInspectionDetails_eq, flatMap_if_eq_filter_flatMap]
  have hne : insp.areas.isEmpty = false := by
    cases hA : insp.areas with
    | nil => exact absurd hA h
    | cons a t => simp
  rw [hne]
  simp

/-- Concrete two-area inspection (one area with an item, one without) for
the C5 witness. -/
def inspTwoAreas : InspectionData :=
  { id := "insp_t", clientName := "C", propertyLocation := "L",
    propertyType := .villa, inspectorName := "I", inspectionDate := 5,
    areas :=
      [{ id := "a1", name := "Kitchen",
         items := [{ id := "i1", category := "Plumbing", point := "Sink",
                     status := .fail, location := "", comments := "Leak",
                     photos := [] }] },
       { id := "a2", name := "Garage", items := [] }],
    aiSummary := "" }

/-- Witness for the amended C5 theorem at a concrete inspection. -/
theorem findings_area_structure_witness :
    inspTwoAreas.areas ≠ [] ∧
    addInspectionDetails [] inspTwoAreas
      = [] ++ [PdfBlock.pageBreak,
          PdfBlock.sectionHeader "INSPECTION FINDINGS" "نتائج الفحص"]
        ++ (inspTwoAreas.areas.filter (fun a => !a.items.isEmpty)).flatMap
            (fun a => PdfBlock.areaHeading a.name
              :: a.items.map PdfBlock.itemCard) :=
  ⟨by decide, findings_area_structure [] inspTwoAreas (by decide)⟩

/-- Concrete inspection with zero areas for the C6 witness. -/
def inspNoAreas : InspectionData :=
  { id := "insp_0", clientName := "C", propertyLocation := "L",
    propertyType := .other, inspectorName := "I", inspectionDate := 1,
    areas := [], aiSummary := "" }

/-- C6: for every inspection whose areas sequence is empty, report
generation (a total function — the zero-areas branch of
`addInspectionDetails` throws nothing) produces a document whose findings
section contains the explicit fixed statement that no items were
recorded. -/
theorem findings_empty_inspection (insp : InspectionData)
    (h : insp.areas = []) :
    PdfBlock.noItemsNote noItemsText ∈ generateReport insp ∧
    noItemsText = "No inspection items were recorded for this property." := by
  refine ⟨?_, rfl⟩
  unfold generateReport
  rw [addInspectionDetails_eq]
  simp [h]

/-- Witness for C6 at a concrete zero-area inspection. -/
theorem findings_empty_inspection_witness :
    inspNoAreas.areas = [] ∧
    PdfBlock.noItemsNote noItemsText ∈ generateReport inspNoAreas :=
  ⟨rfl, (findings_empty_inspection inspNoAreas rfl).1⟩

/-- The per-unit rate as the spec words it: unit price 1 if the property
type is Residential and 2 if Commercial. Spec-side definition, compared
against the conditional in `handlePropertySelect`. -/
def specRate : PropertyKind → Rat
  | .residential => 1
  | .commercial => 2

/-- C7: selecting a property while editing an invoice replaces the service
lines by a single auto-populated line whose quantity is the property's
size, whose unit price is 1 for a Residential and 2 for a Commercial
property, and whose total is size × rate; the invoice's property location
is set to the selected property's location. -/
theorem property_select_populates_line (inv : Invoice) (svcId : String)
    (p : Property) :
    (applyStep inv (.selectProperty svcId p)).services.map
        (fun s => (s.quantity, s.unitPrice, s.total))
      = [(p.size, specRate p.type, p.size * specRate p.type)] ∧
    (applyStep inv (.selectProperty svcId p)).propertyLocation
      = p.location := by
  cases hp : p.type <;>
    simp [applyStep, recomputeTotals, inspectionServiceLine, specRate, hp]

theorem ptString_ne_all (t : PropertyType) :
    (ptString t == "All") = false := by
  cases t <;> decide

theorem ptString_beq (a b : PropertyType) :
    (ptString a == ptString b) = (a == b) := by
  cases a <;> cases b <;> decide

/-- C8: filtering the dashboard inspection list by a property type returns
exactly the inspections whose property type equals the filter value, as a
sublist (hence in the same relative order) of the unfiltered list, which is
itself sorted by inspection date descending. -/
theorem inspections_filter_by_type (s : StoredData InspectionData)
    (t : PropertyType) :
    filteredInspections (ptString t) (getInspections s)
        = (getInspections s).filter (fun insp => insp.propertyType == t) ∧
    (filteredInspections (ptString t) (getInspections s)).Sublist
        (getInspections s) ∧
    (getInspections s).Pairwise
        (fun a b => b.inspectionDate ≤ a.inspectionDate) := by
  refine ⟨?_, ?_, getInspections_sorted s⟩
  · apply List.filter_congr
    intro x hx
    rw [ptString_ne_all, ptString_beq]
    simp
  · exact List.filter_sublist _

/-- C9: when the AI summary call fails, the fixed error string becomes the
inspection's `aiSummary`, the updated inspection is persisted and
retrievable by id, the stored summary is a non-empty string, and report
generation subsequently treats it as a stored summary, rendering it inside
the executive-summary box. -/
theorem failed_summary_is_stored (insp : InspectionData)
    (s : StoredData InspectionData) :
    (handleGenerateSummary insp none s).1.aiSummary = summaryErrorString ∧
    summaryErrorString.isEmpty = false ∧
    getInspectionById (handleGenerateSummary insp none s).1.id
        (handleGenerateSummary insp none s).2
      = some (handleGenerateSummary insp none s).1 ∧
    PdfBlock.summaryBox summaryErrorString
      ∈ generateReport (handleGenerateSummary insp none s).1 := by
  refine ⟨rfl, by decide, saveInspection_getById _ s, ?_⟩
  unfold generateReport
  rw [addInspectionDetails_eq]
  have hne : summaryErrorString.isEmpty = false := by decide
  simp [handleGenerateSummary, generateReportSummary, addAISummary, hne]

/-- C10 counterexample: an empty clients list can also be read back from a
validly stored empty collection — a state that ordinary operation reaches
by deleting the last client — not only from a parse failure. -/
theorem clients_empty_store_counterexample :
    deleteClient "client_1" (.stored MOCK_CLIENTS) = .stored [] ∧
    (getClients (.stored ([] : List Client))).1 = [] ∧
    decide ((StoredData.stored ([] : List Client))
      = (.corrupt : StoredData Client)) = false :=
  ⟨by decide, rfl, by decide⟩

/-- C10 (amended): reading an absent clients collection returns the
built-in non-empty mock client list and writes it into storage as a side
effect; a collection that fails to parse reads as the empty list with
storage untouched; a validly stored list is returned exactly as stored.
Hence an empty result arises from a parse failure or from a stored empty
list, never from an absent key. -/
theorem getClients_seeds_mock (l : List Client) :
    getClients .absent = (MOCK_CLIENTS, .stored MOCK_CLIENTS) ∧
    MOCK_CLIENTS.isEmpty = false ∧
    getClients .corrupt = ([], .corrupt) ∧
    (getClients (.stored l)).1 = l :=
  ⟨rfl, rfl, rfl, rfl⟩
